import Mathlib

/-!
A shallow embedding of the PS/2 keyboard firmware `src/keyboard.c`
(HuffmanCS/PS2-Keyboard).  Pure data and control flow are translated
directly; the AT89C52 port operations are abstracted into an observable
event trace: each call of the C `transmit` function contributes one
`Ev.frame` event carrying the 16-bit value passed to it (the value of its
`unsigned int` parameter), and each `delay_us` call between transmissions
contributes one `Ev.pause` event carrying the requested microseconds.
Host bytes read by `receive` are supplied as a list of naturals; `receive`
assembles 10 wire bits, so its result is the head of that list reduced
modulo 1024.  The global C state (`LAST_BYTE`, `ENABLE`, `REPEAT_RATE`,
`REPEAT_DELAY`, and the CapsLock LED latch on P2.3) is an explicit record
threaded through the functions.
-/

/-- `#define BREAK 336` — the inter-transmission delay in microseconds. -/
def BREAK : Nat := 336

/-- `#define EXT 0x02E0` — extension keycode with stop/parity. -/
def EXT : Nat := 0x02E0

/-- `#define REL 0x03F0` — release keycode with stop/parity. -/
def REL : Nat := 0x03F0

/-- `#define ACK 0x03FA` — acknowledge reply with stop/parity. -/
def ACK : Nat := 0x03FA

/-- `#define RE 0x02FE` — resend reply with stop/parity. -/
def RE : Nat := 0x02FE

/-- `const uint32_t KEY_SCAN_CODES[14][6]` — the scan-code table, row by
row exactly as in the source. -/
def KEY_SCAN_CODES : List (List Nat) :=
  [ [ 0x0314, 0x0312, 0x0258, 0x020d, 0x020e, 0x0276 ],
    [ 0xe0021f, 0x021a, 0x021c, 0x0215, 0x0216, 0x00 ],
    [ 0x0311, 0x0322, 0x031b, 0x031d, 0x031e, 0x0305 ],
    [ 0x00, 0x0321, 0x0223, 0x0324, 0x0226, 0x0306 ],
    [ 0x00, 0x022a, 0x032b, 0x032d, 0x0225, 0x0204 ],
    [ 0x00, 0x0232, 0x0234, 0x022c, 0x032e, 0x030c ],
    [ 0x0229, 0x0231, 0x0333, 0x0335, 0x0336, 0x00 ],
    [ 0x00, 0x033a, 0x023b, 0x033c, 0x023d, 0x0303 ],
    [ 0x00, 0x0341, 0x0342, 0x0243, 0x023e, 0x020b ],
    [ 0xe00311, 0x0249, 0x034b, 0x0344, 0x0246, 0x0283 ],
    [ 0xe00327, 0x024a, 0x024c, 0x034d, 0x0245, 0x030a ],
    [ 0xe0022f, 0x00, 0x0252, 0x0254, 0x034e, 0x0201 ],
    [ 0x00, 0x00, 0x0378, 0x025b, 0x0355, 0x0309 ],
    [ 0xe00314, 0x0359, 0x035a, 0x025d, 0x0366, 0x0207 ] ]

/-- The table entry at matrix position `(i, j)` (zero when out of range,
matching the zero padding a missing key would have). -/
def codeAt (i j : Nat) : Nat := (KEY_SCAN_CODES.getD i []).getD j 0

/-- Observable events of the firmware: an 11-bit frame handed to
`transmit` (recorded as the 16-bit argument value), or a `delay_us` call
of the given number of microseconds between transmissions. -/
inductive Ev where
  | frame (v : Nat)
  | pause (us : Nat)
deriving DecidableEq, Repr

/-- The global mutable state of `keyboard.c` that the claims concern:
`LAST_BYTE`, `ENABLE`, `REPEAT_RATE`, `REPEAT_DELAY` and the CapsLock
LED bit P2.3. -/
structure KbState where
  last_byte : Nat
  enable : Nat
  repeat_rate : Nat
  repeat_delay : Nat
  capsLed : Bool
deriving DecidableEq, Repr

/-- The state at boot: `LAST_BYTE = 0x00`, `ENABLE = 1`,
`REPEAT_RATE = 50`, `REPEAT_DELAY = 100`; `main` sets `P2 = 0x0f`, so
P2.3 starts high. -/
def bootState : KbState :=
  { last_byte := 0x00, enable := 1, repeat_rate := 50,
    repeat_delay := 100, capsLed := true }

/-- `transmit(unsigned int keycode)`: stores the (16-bit) argument into
`LAST_BYTE` and clocks the 11 wire bits of `keycode << 1` out on the
data line.  The observable effect is one `Ev.frame` event carrying the
16-bit argument value. -/
def transmit (s : KbState) (keycode : Nat) : KbState × List Ev :=
  ({ s with last_byte := keycode % 65536 }, [Ev.frame (keycode % 65536)])

/-- The 11 bits of the wire frame `transmit` produces for argument `v`,
LSB first: the source computes `keycode <<= 1` (start bit 0) and then
shifts out bits 0..10. -/
def wireBits (v : Nat) : List Nat :=
  (List.range 11).map (fun i => (((v % 65536) * 2) >>> i) % 2)

/-- Well-formedness of the frame `transmit` emits for argument `v`:
start bit 0, stop bit 1, and odd parity over the 8 data bits together
with the parity bit (wire bits 1..9). -/
def framedOk (v : Nat) : Bool :=
  (wireBits v).headD 1 == 0 &&
  (wireBits v).getLastD 0 == 1 &&
  (((wireBits v).drop 1).take 9).sum % 2 == 1

/-- `receive()`: assembles 10 host-driven wire bits (8 data, parity,
stop) LSB first into `buffer`, so the result is a value below 1024.
The host byte stream is modelled by the argument list. -/
def receive (args : List Nat) : Nat := args.headD 0 % 1024

/-- `sendCode(uint32_t keycode, char keyState)`: emits the make or break
sequence for `keycode`, with a `BREAK` delay after every frame, adding
the `EXT` prefix when `keycode & 0xff0000 == 0xe00000` and the `REL`
prefix for releases. -/
def sendCode (s : KbState) (keycode : Nat) (keyState : Bool) :
    KbState × List Ev :=
  if keyState then
    if keycode &&& 0xff0000 = 0xe00000 then
      let t1 := transmit s EXT
      let t2 := transmit t1.1 keycode
      (t2.1, t1.2 ++ [Ev.pause BREAK] ++ t2.2 ++ [Ev.pause BREAK])
    else
      let t1 := transmit s keycode
      (t1.1, t1.2 ++ [Ev.pause BREAK])
  else
    if keycode &&& 0xff0000 = 0xe00000 then
      let t1 := transmit s EXT
      let t2 := transmit t1.1 REL
      let t3 := transmit t2.1 keycode
      (t3.1, t1.2 ++ [Ev.pause BREAK] ++ t2.2 ++ [Ev.pause BREAK] ++
        t3.2 ++ [Ev.pause BREAK])
    else
      let t1 := transmit s REL
      let t2 := transmit t1.1 keycode
      (t2.1, t1.2 ++ [Ev.pause BREAK] ++ t2.2 ++ [Ev.pause BREAK])

/-- `followCommand(unsigned int command)`: the host-command interpreter.
`command &= 0xff` first; each `case` of the C `switch` becomes one arm
of the conditional chain below, in source order.  Note that in the
`0xfe` arm the source reads the global `LAST_BYTE` after `transmit(ACK)`
has already overwritten it, which is mirrored by reading the
`last_byte` field of the post-ACK state. -/
def followCommand (s : KbState) (command : Nat) (args : List Nat) :
    KbState × List Ev :=
  let c := command % 256
  if c = 0xed then
    let t1 := transmit s ACK
    let arg := receive args
    let t2 := transmit t1.1 ACK
    ({ t2.1 with capsLed := (arg &&& 0x04) != 0 }, t1.2 ++ t2.2)
  else if c = 0xee then
    transmit s 0x03ee
  else if c = 0xf0 then
    let t1 := transmit s ACK
    let arg := receive args
    let t2 := transmit t1.1 ACK
    if arg &&& 0xff = 0 then
      let t3 := transmit t2.1 0x0341
      (t3.1, t1.2 ++ t2.2 ++ t3.2)
    else
      (t2.1, t1.2 ++ t2.2)
  else if c = 0xf2 then
    let t1 := transmit s ACK
    let t2 := transmit t1.1 0x02ab
    let t3 := transmit t2.1 0x0283
    (t3.1, t1.2 ++ t2.2 ++ [Ev.pause BREAK] ++ t3.2)
  else if c = 0xf3 then
    let t1 := transmit s ACK
    let arg := receive args
    let t2 := transmit t1.1 ACK
    let rate : Nat :=
      if 0x18 ≤ (arg &&& 0x1f) ∧ (arg &&& 0x1f) ≤ 0x1f then 50
      else if 0x10 ≤ (arg &&& 0x1f) ∧ (arg &&& 0x1f) ≤ 0x17 then 25
      else if 0x08 ≤ (arg &&& 0x1f) ∧ (arg &&& 0x1f) ≤ 0x0f then 12
      else if 0x04 ≤ (arg &&& 0x1f) ∧ (arg &&& 0x1f) ≤ 0x07 then 6
      else 3
    let dly : Nat :=
      if arg &&& 0x60 = 0x20 then 50
      else if arg &&& 0x60 = 0x40 then 75
      else if arg &&& 0x60 = 0x60 then 100
      else 25
    ({ t2.1 with repeat_rate := rate, repeat_delay := dly },
      t1.2 ++ t2.2)
  else if c = 0xf4 then
    let t1 := transmit s ACK
    ({ t1.1 with enable := 1 }, t1.2)
  else if c = 0xf5 then
    let t1 := transmit s ACK
    ({ t1.1 with enable := 0 }, t1.2)
  else if c = 0xfe then
    let t1 := transmit s ACK
    let t2 := transmit t1.1 t1.1.last_byte
    (t2.1, t1.2 ++ t2.2)
  else if c = 0xff then
    let t1 := transmit s ACK
    let t2 := transmit t1.1 0x03aa
    (t2.1, t1.2 ++ [Ev.pause BREAK] ++ t2.2)
  else if 0xf6 ≤ c ∧ c ≤ 0xfa then
    transmit s ACK
  else if 0xfb ≤ c ∧ c ≤ 0xfd then
    let t1 := transmit s ACK
    let _arg := receive args
    let t2 := transmit t1.1 ACK
    (t2.1, t1.2 ++ t2.2)
  else
    transmit s RE

/-- `void timer2Int(void) __interrupt 5`: the 10 ms tick.  Increments
`ELAPSED_TIME` and resets it to 0 once it exceeds 127, so the counter
cycles through 0..127. -/
def timer2Int (elapsed : Nat) : Nat :=
  let e := elapsed + 1
  if e > 127 then 0 else e

/-- The explicit wraparound expression of the scanner's repeat-delay
test, `(127 - keyStamps[i][j]) + ELAPSED_TIME` (line 337 of the
source). -/
def elapsedWrap (stamp tick : Nat) : Nat := (127 - stamp) + tick

/-- One iteration of the per-cell body of `main`'s scan loop (source
lines 328–350) for a cell holding `stamp = keyStamps[i][j]`, with the
current tick `ELAPSED_TIME`, the cell's table entry `code`, and the
sampled row bit.  Returns the new global state, the new stamp, and the
emitted events. -/
def scanCell (s : KbState) (stamp tick code : Nat) (rowBit : Bool) :
    KbState × Nat × List Ev :=
  if rowBit then
    if stamp = 0 then
      let t := sendCode s code true
      (t.1, tick, t.2)
    else if 128 ≤ stamp ∨
        (stamp < tick ∧ tick - stamp ≥ s.repeat_delay) ∨
        (tick < stamp ∧ elapsedWrap stamp tick ≥ s.repeat_delay) then
      let stamp1 := stamp ||| 0x80
      if tick % s.repeat_rate = 0 ∧ (stamp1 &&& 0x7f) ≠ tick then
        let t := sendCode s code true
        (t.1, 0x80 ||| tick, t.2)
      else
        (s, stamp1, [])
    else
      (s, stamp, [])
  else
    if stamp ≠ 0 then
      let t := sendCode s code false
      (t.1, 0, t.2)
    else
      (s, stamp, [])

/-- Iterate `scanCell` for one matrix cell over a list of
`(tick, rowBit)` observations, concatenating the emitted events. -/
def runCell (s : KbState) (stamp code : Nat) :
    List (Nat × Bool) → KbState × Nat × List Ev
  | [] => (s, stamp, [])
  | (t, r) :: rest =>
    let st1 := scanCell s stamp t code r
    let st2 := runCell st1.1 st1.2.1 code rest
    (st2.1, st2.2.1, st1.2.2 ++ st2.2.2)

/-- The frame values of an event list, transmission order preserved. -/
def framesOnly (l : List Ev) : List Nat :=
  l.filterMap (fun e => match e with | Ev.frame v => some v | Ev.pause _ => none)

/-- Number of frame events carrying value `v`. -/
def countFrames (v : Nat) (l : List Ev) : Nat := l.count (Ev.frame v)

/-- `minGapFrom b acc l`: scanning event list `l`, with `acc = some g`
meaning a frame has been seen and `g` microseconds of pause have
accumulated since it, checks that every two successive frames are
separated by at least `b` microseconds of pauses. -/
def minGapFrom (b : Nat) : Option Nat → List Ev → Bool
  | _, [] => true
  | none, Ev.pause _ :: rest => minGapFrom b none rest
  | none, Ev.frame _ :: rest => minGapFrom b (some 0) rest
  | some g, Ev.pause p :: rest => minGapFrom b (some (g + p)) rest
  | some g, Ev.frame _ :: rest => (b ≤ g) && minGapFrom b (some 0) rest

/-- Every two successive frames of `l` are separated by at least `b`
microseconds of accumulated pause events. -/
def minGapOk (b : Nat) (l : List Ev) : Bool := minGapFrom b none l

/-- The command bytes that have a `case` in the `switch` of
`followCommand`: `0xed`, `0xee`, `0xf0` and `0xf2`–`0xff`. -/
def knownCmd (c : Nat) : Bool :=
  c == 0xed || c == 0xee || c == 0xf0 || (0xf2 ≤ c && c ≤ 0xff)

/-- Modelled from the spec (S5, §4.E table): the typematic repeat rate
the spec assigns to argument bits 0–4. -/
def rateSpec (arg : Nat) : Nat :=
  if 0x18 ≤ (arg &&& 0x1f) ∧ (arg &&& 0x1f) ≤ 0x1f then 50
  else if 0x10 ≤ (arg &&& 0x1f) ∧ (arg &&& 0x1f) ≤ 0x17 then 25
  else if 0x08 ≤ (arg &&& 0x1f) ∧ (arg &&& 0x1f) ≤ 0x0f then 12
  else if 0x04 ≤ (arg &&& 0x1f) ∧ (arg &&& 0x1f) ≤ 0x07 then 6
  else 3

/-- Modelled from the spec (S5, §4.E table): the typematic delay the
spec assigns to argument bits 5–6. -/
def delaySpec (arg : Nat) : Nat :=
  if arg &&& 0x60 = 0x20 then 50
  else if arg &&& 0x60 = 0x40 then 75
  else if arg &&& 0x60 = 0x60 then 100
  else 25

/-! ## Theorems -/

/-- C1: evaluating `followCommand` at command `0xFE` with
`LAST_BYTE = 0x0314` (the make code of L_CTRL as the most recently
transmitted byte).  The reply is two ACK frames: `transmit(ACK)`
overwrites `LAST_BYTE` before the resend transmission reads it, so the
pre-command byte `0x0314` is never retransmitted. -/
theorem resend_retransmits_ack_eval :
    (followCommand { bootState with last_byte := 0x0314 } 0xfe []).2 =
      [Ev.frame ACK, Ev.frame ACK] ∧ (ACK : Nat) ≠ 0x0314 := by
  decide

/-- C5 counterexample: at stamp `s = 1` (bit 7 clear) and tick `t = 0`
with `t < s & 0x7F`, the scanner's wrap expression `(127 - s) + t`
yields 126, while `(t - s) mod 128` is 127; the two quantities the
claim equates differ. -/
theorem wrap_formula_cex :
    elapsedWrap 1 0 = 126 ∧ (((0 : Int) - 1) % 128 = 127) ∧
      (126 : Int) ≠ 127 := by
  decide

/-- C5 (amended): for a stamp with bit 7 clear and a wrapped tick
`t < s`, the elapsed-time expression the scanner compares against
`REPEAT_DELAY`, namely `(127 - s) + t`, equals `((t - s) mod 128) - 1`
— one tick less than true modulo-128 elapsed time. -/
theorem wrap_formula_off_by_one (stamp tick : Nat) (h1 : stamp < 128)
    (h2 : tick < stamp) :
    (elapsedWrap stamp tick : Int) =
      (((tick : Int) - (stamp : Int)) % 128) - 1 := by
  unfold elapsedWrap
  omega

/-- Witness for `wrap_formula_off_by_one` at `stamp = 1`, `tick = 0`. -/
theorem wrap_formula_off_by_one_witness :
    (1 : Nat) < 128 ∧ (0 : Nat) < 1 ∧
      (elapsedWrap 1 0 : Int) = (((0 : Int) - (1 : Int)) % 128) - 1 :=
  ⟨by decide, by decide, wrap_formula_off_by_one 1 0 (by decide) (by decide)⟩

/-- C6 counterexample: starting from a configuration differing from the
boot values (`ENABLE = 0`, `REPEAT_RATE = 3`, `REPEAT_DELAY = 25`),
command `0xFF` leaves all three unchanged; in particular
`REPEAT_RATE` stays 3 instead of returning to its boot value 50. -/
theorem reset_does_not_reinitialize_cex :
    (followCommand { bootState with enable := 0, repeat_rate := 3, repeat_delay := 25 } 0xff []).1.repeat_rate = 3 ∧
    (followCommand { bootState with enable := 0, repeat_rate := 3, repeat_delay := 25 } 0xff []).1.repeat_delay = 25 ∧
    (followCommand { bootState with enable := 0, repeat_rate := 3, repeat_delay := 25 } 0xff []).1.enable = 0 ∧
    (3 : Nat) ≠ 50 := by
  decide

/-- C6 (amended): command `0xFF` transmits ACK, then a delay of `BREAK`
microseconds, then `0xAA` framed (`0x03AA`), and leaves `enable`,
`repeat_rate` and `repeat_delay` untouched (only `last_byte` changes);
no re-initialization of the configuration occurs. -/
theorem reset_reply_and_config (s : KbState) :
    followCommand s 0xff [] =
      ({ s with last_byte := 0x03aa },
        [Ev.frame ACK, Ev.pause BREAK, Ev.frame 0x03aa]) := by
  rfl

/-- C9 counterexample: the reply to `0xF2` is the identity sequence
`FA AB 83`, but its successive frames are not all separated by at least
`BREAK` microseconds: the ACK frame is followed immediately by the
`0xAB` frame with no intervening delay. -/
theorem read_id_gap_cex :
    framesOnly (followCommand bootState 0xf2 []).2 =
      [ACK, 0x02ab, 0x0283] ∧
    minGapOk BREAK (followCommand bootState 0xf2 []).2 = false := by
  decide

/-- C9 (amended): command `0xF2` transmits exactly ACK, `0xAB` framed
and `0x83` framed; the `0xAB` and `0x83` frames are separated by a
`BREAK`-microsecond delay, while the ACK is followed immediately by
`0xAB`. -/
theorem read_id_reply_exact (s : KbState) :
    followCommand s 0xf2 [] =
      ({ s with last_byte := 0x0283 },
        [Ev.frame ACK, Ev.frame 0x02ab, Ev.pause BREAK,
          Ev.frame 0x0283]) ∧
    minGapOk BREAK [Ev.frame 0x02ab, Ev.pause BREAK, Ev.frame 0x0283] =
      true :=
  ⟨rfl, rfl⟩

/-- C3 counterexample: position `(1, 5)` of the matrix has the zero
(unpopulated) table entry, yet a single pressed row reading there makes
the scanner transmit a frame (the zero code): `main` has no zero check
before `sendCode`. -/
theorem zero_entry_pressed_emits_cex :
    codeAt 1 5 = 0 ∧
    (runCell bootState 0 (codeAt 1 5) [(5, true)]).2.2 =
      [Ev.frame 0, Ev.pause BREAK] := by
  decide

/-- C3 (amended): for a matrix position whose table entry is zero, as
long as every row reading at that position is released, the scanner
transmits nothing for it and its `keyStamps` cell stays zero; the code
does not special-case zero entries, so a pressed reading at such a
position does transmit the zero entry (see the counterexample). -/
theorem zero_entry_silent_when_released (i j : Nat) (s : KbState)
    (steps : List (Nat × Bool)) (hz : codeAt i j = 0)
    (hr : ∀ p ∈ steps, p.2 = false) :
    runCell s 0 (codeAt i j) steps = (s, 0, []) := by
  rw [hz]
  induction steps generalizing s with
  | nil => rfl
  | cons p rest ih =>
    have hp : p.2 = false := hr p (List.mem_cons_self p rest)
    have hrest : ∀ q ∈ rest, q.2 = false :=
      fun q hq => hr q (List.mem_cons_of_mem p hq)
    obtain ⟨t, r⟩ := p
    simp only at hp
    subst hp
    simp [runCell, scanCell, ih s hrest]

/-- Witness for `zero_entry_silent_when_released` at position `(1, 5)`
with two released readings. -/
theorem zero_entry_silent_when_released_witness :
    codeAt 1 5 = 0 ∧
    runCell bootState 0 (codeAt 1 5) [(3, false), (7, false)] =
      (bootState, 0, []) :=
  ⟨by decide,
    zero_entry_silent_when_released 1 5 bootState [(3, false), (7, false)]
      (by decide) (by decide)⟩

/-- Helper: a bitwise-or with `0x80` on the left is never zero. -/
theorem or128_left_ne_zero (x : Nat) : (128 : Nat) ||| x ≠ 0 := by
  intro h
  have h7 : ((128 : Nat) ||| x).testBit 7 = (0 : Nat).testBit 7 := by
    rw [h]
  rw [Nat.testBit_or, (by decide : Nat.testBit 128 7 = true)] at h7
  simp [Nat.zero_testBit] at h7

/-- Helper: a bitwise-or with `0x80` on the right is never zero. -/
theorem or128_right_ne_zero (x : Nat) : x ||| (128 : Nat) ≠ 0 := by
  intro h
  have h7 : (x ||| (128 : Nat)).testBit 7 = (0 : Nat).testBit 7 := by
    rw [h]
  rw [Nat.testBit_or, (by decide : Nat.testBit 128 7 = true)] at h7
  simp [Nat.zero_testBit] at h7

/-- C4 counterexample: press the L_CTRL cell (code `0x0314`) while
`ELAPSED_TIME = 0`.  One make sequence is emitted, no break sequence,
yet the key's stored state is `0` (the tick was stored verbatim), so
the claimed balance `makes = breaks + (1 if pressed-state nonzero)` reads
`1 = 0` and fails. -/
theorem make_break_balance_cex :
    ¬ (countFrames 0x0314 (runCell bootState 0 0x0314 [(0, true)]).2.2 -
        countFrames REL (runCell bootState 0 0x0314 [(0, true)]).2.2 =
       countFrames REL (runCell bootState 0 0x0314 [(0, true)]).2.2 +
        (if (runCell bootState 0 0x0314 [(0, true)]).2.1 ≠ 0 then 1
         else 0)) := by
  decide

/-- C4 (amended): in one scanner step for a cell whose code is not the
release prefix, a state transition from nonzero to zero emits a break
sequence (at least one `REL` frame), and a transition from zero to
nonzero emits a make sequence (at least one frame of the cell's code and
no `REL` frame).  The exact global balance fails: typematic repeat emits
further makes while the state stays nonzero, and a make emitted at tick
0 leaves the state zero (see the counterexample). -/
theorem state_transition_emits_make_break (s : KbState)
    (stamp tick code : Nat) (rowBit : Bool)
    (hcode : code % 65536 ≠ REL) :
    (stamp ≠ 0 → (scanCell s stamp tick code rowBit).2.1 = 0 →
      1 ≤ countFrames REL (scanCell s stamp tick code rowBit).2.2) ∧
    (stamp = 0 → (scanCell s stamp tick code rowBit).2.1 ≠ 0 →
      1 ≤ countFrames (code % 65536)
            (scanCell s stamp tick code rowBit).2.2 ∧
      countFrames REL (scanCell s stamp tick code rowBit).2.2 = 0) := by
  have hrel : REL % 65536 = REL := by decide
  have hext' : REL ≠ EXT % 65536 := by decide
  have hcode' : REL ≠ code % 65536 := fun h => hcode h.symm
  constructor
  · intro hs hz
    cases rowBit with
    | false =>
      by_cases he : code &&& 0xff0000 = 0xe00000 <;>
        simp [scanCell, hs, sendCode, he, transmit, countFrames, hrel]
    | true =>
      exfalso
      by_cases h0 : stamp = 0
      · exact hs h0
      · by_cases hbig : 128 ≤ stamp ∨
            (stamp < tick ∧ tick - stamp ≥ s.repeat_delay) ∨
            (tick < stamp ∧ elapsedWrap stamp tick ≥ s.repeat_delay)
        · by_cases hrep : tick % s.repeat_rate = 0 ∧
              ((stamp ||| 0x80) &&& 0x7f) ≠ tick
          · have hpr : (scanCell s stamp tick code true).2.1 =
                0x80 ||| tick := by
              simp [scanCell, h0, hbig, hrep]
            rw [hpr] at hz
            exact or128_left_ne_zero tick hz
          · have hpr : (scanCell s stamp tick code true).2.1 =
                stamp ||| 0x80 := by
              simp [scanCell, h0, hbig, hrep]
            rw [hpr] at hz
            exact or128_right_ne_zero stamp hz
        · have hpr : (scanCell s stamp tick code true).2.1 = stamp := by
            simp [scanCell, h0, hbig]
          rw [hpr] at hz
          exact hs hz
  · intro hs hnz
    subst hs
    cases rowBit with
    | false =>
      exfalso
      simp [scanCell] at hnz
    | true =>
      by_cases he : code &&& 0xff0000 = 0xe00000 <;>
        simp [scanCell, sendCode, he, transmit, countFrames, hrel,
          hcode', hext', List.count_eq_zero]

/-- Helper: a frame value occurring in an event list occurs in its
`framesOnly` projection. -/
theorem frame_mem_framesOnly {f : Nat} {l : List Ev}
    (h : Ev.frame f ∈ l) : f ∈ framesOnly l := by
  simp only [framesOnly, List.mem_filterMap]
  exact ⟨Ev.frame f, h, rfl⟩

/-- Helper: if all frame values of an event list satisfy `framedOk`, so
does any frame occurring in it. -/
theorem framedOk_of_mem {f : Nat} {l : List Ev}
    (h : Ev.frame f ∈ l)
    (hall : (framesOnly l).all framedOk = true) : framedOk f = true :=
  List.all_eq_true.mp hall f (frame_mem_framesOnly h)

/-- Helper: every nonzero scan-code table entry, truncated to the 16-bit
`transmit` argument, is a well-formed frame. -/
theorem keyFramesOk :
    ∀ e ∈ KEY_SCAN_CODES.flatten, e ≠ 0 → framedOk (e % 65536) = true := by
  decide

/-- Helper: the frames `sendCode` emits are the `EXT` prefix, the `REL`
prefix, and the truncated keycode. -/
theorem sendCode_frames_subset (s : KbState) (k : Nat) (ks : Bool)
    (f : Nat) (hf : Ev.frame f ∈ (sendCode s k ks).2) :
    f = EXT % 65536 ∨ f = REL % 65536 ∨ f = k % 65536 := by
  simp only [sendCode] at hf
  split_ifs at hf <;> simp [transmit] at hf <;> tauto

/-- C2 counterexample: the zero table entry at position `(1, 5)` can be
passed to the transmitter (a pressed row reading there makes `sendCode`
hand frame `0x0000` to `transmit`), and that frame is not well-formed:
its stop bit is 0 and its parity is even. -/
theorem zero_entry_frame_ill_formed_cex :
    codeAt 1 5 = 0 ∧
    (sendCode bootState (codeAt 1 5) true).2 =
      [Ev.frame 0, Ev.pause BREAK] ∧
    framedOk 0 = false := by
  decide

/-- C2 (amended): every frame the command interpreter passes to the
transmitter, and every frame the scanner passes for a nonzero table
entry, has start bit 0, stop bit 1 and odd parity; the zero table
entries, which reach the transmitter only when an unpopulated position
reads pressed, do not (see the counterexample). -/
theorem emitted_frames_well_formed :
    (∀ (s : KbState) (c : Nat) (args : List Nat) (f : Nat),
      Ev.frame f ∈ (followCommand s c args).2 → framedOk f = true) ∧
    (∀ e ∈ KEY_SCAN_CODES.flatten, e ≠ 0 →
      ∀ (s : KbState) (ks : Bool) (f : Nat),
        Ev.frame f ∈ (sendCode s e ks).2 → framedOk f = true) := by
  constructor
  · intro s c args f hf
    simp only [followCommand] at hf
    by_cases h1 : c % 256 = 0xed
    · rw [if_pos h1] at hf
      simp only [transmit] at hf
      exact framedOk_of_mem hf (by decide)
    rw [if_neg h1] at hf
    by_cases h2 : c % 256 = 0xee
    · rw [if_pos h2] at hf
      simp only [transmit] at hf
      exact framedOk_of_mem hf (by decide)
    rw [if_neg h2] at hf
    by_cases h3 : c % 256 = 0xf0
    · rw [if_pos h3] at hf
      by_cases ha : receive args &&& 0xff = 0
      · rw [if_pos ha] at hf
        simp only [transmit] at hf
        exact framedOk_of_mem hf (by decide)
      · rw [if_neg ha] at hf
        simp only [transmit] at hf
        exact framedOk_of_mem hf (by decide)
    rw [if_neg h3] at hf
    by_cases h4 : c % 256 = 0xf2
    · rw [if_pos h4] at hf
      simp only [transmit] at hf
      exact framedOk_of_mem hf (by decide)
    rw [if_neg h4] at hf
    by_cases h5 : c % 256 = 0xf3
    · rw [if_pos h5] at hf
      simp only [transmit] at hf
      exact framedOk_of_mem hf (by decide)
    rw [if_neg h5] at hf
    by_cases h6 : c % 256 = 0xf4
    · rw [if_pos h6] at hf
      simp only [transmit] at hf
      exact framedOk_of_mem hf (by decide)
    rw [if_neg h6] at hf
    by_cases h7 : c % 256 = 0xf5
    · rw [if_pos h7] at hf
      simp only [transmit] at hf
      exact framedOk_of_mem hf (by decide)
    rw [if_neg h7] at hf
    by_cases h8 : c % 256 = 0xfe
    · rw [if_pos h8] at hf
      simp only [transmit] at hf
      exact framedOk_of_mem hf (by decide)
    rw [if_neg h8] at hf
    by_cases h9 : c % 256 = 0xff
    · rw [if_pos h9] at hf
      simp only [transmit] at hf
      exact framedOk_of_mem hf (by decide)
    rw [if_neg h9] at hf
    by_cases h10 : 0xf6 ≤ c % 256 ∧ c % 256 ≤ 0xfa
    · rw [if_pos h10] at hf
      simp only [transmit] at hf
      exact framedOk_of_mem hf (by decide)
    rw [if_neg h10] at hf
    by_cases h11 : 0xfb ≤ c % 256 ∧ c % 256 ≤ 0xfd
    · rw [if_pos h11] at hf
      simp only [transmit] at hf
      exact framedOk_of_mem hf (by decide)
    rw [if_neg h11] at hf
    simp only [transmit] at hf
    exact framedOk_of_mem hf (by decide)
  · intro e he hne s ks f hf
    rcases sendCode_frames_subset s e ks f hf with h | h | h
    · subst h; decide
    · subst h; decide
    · subst h; exact keyFramesOk e he hne

/-- Witness for `emitted_frames_well_formed`: the echo reply frame
`0x03EE` and the truncated L_CTRL make frame `0x0314` both check. -/
theorem emitted_frames_well_formed_witness :
    framedOk 0x03ee = true ∧ framedOk (0x0314 % 65536) = true :=
  ⟨emitted_frames_well_formed.1 bootState 0xee [] 0x03ee (by decide),
   emitted_frames_well_formed.2 0x0314 (by decide) (by decide) bootState
     true (0x0314 % 65536) (by decide)⟩

/-- C8: command `0xF3` replies ACK, reads the argument byte, replies ACK
again, and decodes it: bits 0–4 select `repeat_rate`
(`0x18`–`0x1F` → 50, `0x10`–`0x17` → 25, `0x08`–`0x0F` → 12,
`0x04`–`0x07` → 6, else 3) and bits 5–6 select `repeat_delay`
(`00` → 25, `01` → 50, `10` → 75, `11` → 100), as captured by
`rateSpec` and `delaySpec`. -/
theorem set_typematic_decodes_arg (s : KbState) (arg : Nat)
    (h : arg < 256) :
    framesOnly (followCommand s 0xf3 [arg]).2 = [ACK, ACK] ∧
    (followCommand s 0xf3 [arg]).1.repeat_rate = rateSpec arg ∧
    (followCommand s 0xf3 [arg]).1.repeat_delay = delaySpec arg := by
  have hm : arg % 1024 = arg := Nat.mod_eq_of_lt (by omega)
  simp [followCommand, receive, transmit, framesOnly, rateSpec,
    delaySpec, hm, ACK]

/-- Witness for `set_typematic_decodes_arg` at argument `0x30` (S5 of
the spec): reply `FA FA`, `repeat_rate = 25`, `repeat_delay = 50`. -/
theorem set_typematic_decodes_arg_witness :
    (0x30 : Nat) < 256 ∧
    (framesOnly (followCommand bootState 0xf3 [0x30]).2 = [ACK, ACK] ∧
     (followCommand bootState 0xf3 [0x30]).1.repeat_rate =
       rateSpec 0x30 ∧
     (followCommand bootState 0xf3 [0x30]).1.repeat_delay =
       delaySpec 0x30) ∧
    rateSpec 0x30 = 25 ∧ delaySpec 0x30 = 50 :=
  ⟨by decide, set_typematic_decodes_arg bootState 0x30 (by decide),
    by decide, by decide⟩

/-- Helper: masking with a constant below `2^n` ignores a prior
reduction modulo `2^n`. -/
theorem landLow (x c n : Nat) (h : c < 2 ^ n) :
    x % 2 ^ n &&& c = x &&& c := by
  apply Nat.eq_of_testBit_eq
  intro i
  rw [Nat.testBit_and, Nat.testBit_and, Nat.testBit_mod_two_pow]
  by_cases hi : i < n
  · simp [hi]
  · have hc : c.testBit i = false :=
      Nat.testBit_lt_two_pow
        (lt_of_lt_of_le h (Nat.pow_le_pow_right (by omega) (by omega)))
    simp [hc, hi]

/-- Helper: masking with a constant below 256 ignores reduction
modulo 1024. -/
theorem landLow1024 (x c : Nat) (h : c < 256) :
    x % 1024 &&& c = x &&& c := by
  have h10 : (1024 : Nat) = 2 ^ 10 := by norm_num
  rw [h10]
  exact landLow x c 10 (by omega)

/-- Helper: masking with a constant below 256 ignores reduction
modulo 256. -/
theorem landLow256 (x c : Nat) (h : c < 256) :
    x % 256 &&& c = x &&& c := by
  have h8 : (256 : Nat) = 2 ^ 8 := by norm_num
  rw [h8]
  exact landLow x c 8 (by omega)

/-- C10: `followCommand` is insensitive to anything above bit 7 of its
command and of each received argument byte: truncating the command and
the host bytes modulo 256 yields the same transmissions and the same
state update. -/
theorem followCommand_low_byte (s : KbState) (c : Nat)
    (args : List Nat) :
    followCommand s c args =
      followCommand s (c % 256) (args.map (fun a => a % 256)) := by
  have hc : c % 256 % 256 = c % 256 := Nat.mod_mod_of_dvd c (dvd_refl 256)
  have hhead : (args.map (fun a => a % 256)).headD 0 =
      args.headD 0 % 256 := by
    cases args <;> simp
  have hmask : ∀ k : Nat, k < 256 →
      receive (args.map (fun a => a % 256)) &&& k = receive args &&& k := by
    intro k hk
    simp only [receive, hhead]
    rw [landLow1024 _ _ hk, landLow1024 _ _ hk, landLow256 _ _ hk]
  have h04 := hmask 0x04 (by omega)
  have hff := hmask 0xff (by omega)
  have h1f := hmask 0x1f (by omega)
  have h60 := hmask 0x60 (by omega)
  simp only [followCommand, hc, h04, hff, h1f, h60]

/-- C7: the first frame of every command reply is the ACK frame
(`0x03FA`, data byte `0xFA`), except command `0xEE`, whose entire reply
is the single echo frame `0x03EE`, and commands with no `case` in the
`switch` (`knownCmd` false), whose entire reply is the single resend
frame `0x02FE` (data byte `0xFE`). -/
theorem command_reply_shape (s : KbState) (c : Nat) (args : List Nat) :
    if c % 256 = 0xee then
      framesOnly (followCommand s c args).2 = [0x03ee]
    else if knownCmd (c % 256) = true then
      (framesOnly (followCommand s c args).2).head? = some ACK
    else
      framesOnly (followCommand s c args).2 = [RE] := by
  by_cases h1 : c % 256 = 0xed
  · rw [if_neg (show ¬ c % 256 = 0xee by omega),
      if_pos (show knownCmd (c % 256) = true by rw [h1]; decide)]
    simp only [followCommand]
    rw [if_pos h1]
    simp only [transmit]
    decide
  by_cases h2 : c % 256 = 0xee
  · rw [if_pos h2]
    simp only [followCommand]
    rw [if_neg h1, if_pos h2]
    simp only [transmit]
    decide
  by_cases h3 : c % 256 = 0xf0
  · rw [if_neg h2,
      if_pos (show knownCmd (c % 256) = true by rw [h3]; decide)]
    simp only [followCommand]
    rw [if_neg h1, if_neg h2, if_pos h3]
    by_cases ha : receive args &&& 0xff = 0
    · rw [if_pos ha]
      simp only [transmit]
      decide
    · rw [if_neg ha]
      simp only [transmit]
      decide
  by_cases h4 : c % 256 = 0xf2
  · rw [if_neg h2,
      if_pos (show knownCmd (c % 256) = true by rw [h4]; decide)]
    simp only [followCommand]
    rw [if_neg h1, if_neg h2, if_neg h3, if_pos h4]
    simp only [transmit]
    decide
  by_cases h5 : c % 256 = 0xf3
  · rw [if_neg h2,
      if_pos (show knownCmd (c % 256) = true by rw [h5]; decide)]
    simp only [followCommand]
    rw [if_neg h1, if_neg h2, if_neg h3, if_neg h4, if_pos h5]
    simp only [transmit]
    decide
  by_cases h6 : c % 256 = 0xf4
  · rw [if_neg h2,
      if_pos (show knownCmd (c % 256) = true by rw [h6]; decide)]
    simp only [followCommand]
    rw [if_neg h1, if_neg h2, if_neg h3, if_neg h4, if_neg h5,
      if_pos h6]
    simp only [transmit]
    decide
  by_cases h7 : c % 256 = 0xf5
  · rw [if_neg h2,
      if_pos (show knownCmd (c % 256) = true by rw [h7]; decide)]
    simp only [followCommand]
    rw [if_neg h1, if_neg h2, if_neg h3, if_neg h4, if_neg h5,
      if_neg h6, if_pos h7]
    simp only [transmit]
    decide
  by_cases h8 : c % 256 = 0xfe
  · rw [if_neg h2,
      if_pos (show knownCmd (c % 256) = true by rw [h8]; decide)]
    simp only [followCommand]
    rw [if_neg h1, if_neg h2, if_neg h3, if_neg h4, if_neg h5,
      if_neg h6, if_neg h7, if_pos h8]
    simp only [transmit]
    decide
  by_cases h9 : c % 256 = 0xff
  · rw [if_neg h2,
      if_pos (show knownCmd (c % 256) = true by rw [h9]; decide)]
    simp only [followCommand]
    rw [if_neg h1, if_neg h2, if_neg h3, if_neg h4, if_neg h5,
      if_neg h6, if_neg h7, if_neg h8, if_pos h9]
    simp only [transmit]
    decide
  by_cases h10 : 0xf6 ≤ c % 256 ∧ c % 256 ≤ 0xfa
  · rw [if_neg h2,
      if_pos (show knownCmd (c % 256) = true by simp [knownCmd]; omega)]
    simp only [followCommand]
    rw [if_neg h1, if_neg h2, if_neg h3, if_neg h4, if_neg h5,
      if_neg h6, if_neg h7, if_neg h8, if_neg h9, if_pos h10]
    simp only [transmit]
    decide
  by_cases h11 : 0xfb ≤ c % 256 ∧ c % 256 ≤ 0xfd
  · rw [if_neg h2,
      if_pos (show knownCmd (c % 256) = true by simp [knownCmd]; omega)]
    simp only [followCommand]
    rw [if_neg h1, if_neg h2, if_neg h3, if_neg h4, if_neg h5,
      if_neg h6, if_neg h7, if_neg h8, if_neg h9, if_neg h10,
      if_pos h11]
    simp only [transmit]
    decide
  rw [if_neg h2,
    if_neg (show ¬ knownCmd (c % 256) = true by simp [knownCmd]; omega)]
  simp only [followCommand]
  rw [if_neg h1, if_neg h2, if_neg h3, if_neg h4, if_neg h5,
    if_neg h6, if_neg h7, if_neg h8, if_neg h9, if_neg h10,
    if_neg h11]
  simp only [transmit]
  decide

/-- Witness for `state_transition_emits_make_break`: pressing the
L_CTRL cell (code `0x0314`) at tick 5 from released state emits its
make frame and no release prefix. -/
theorem state_transition_emits_make_break_witness :
    (0x0314 % 65536 : Nat) ≠ REL ∧
    (1 ≤ countFrames (0x0314 % 65536)
          (scanCell bootState 0 5 0x0314 true).2.2 ∧
     countFrames REL (scanCell bootState 0 5 0x0314 true).2.2 = 0) :=
  ⟨by decide,
    (state_transition_emits_make_break bootState 0 5 0x0314 true
      (by decide)).2 rfl (by decide)⟩
